import Mathlib

/-!
Verification of the dev-server core: the Vue SFC HMR diff
(`serverPluginVue.ts`), the CSS change handler (`serverPluginCss.ts`),
and the bidirectional path / package / optimized-artifact resolver
(`resolver.ts`, provided unnamed).

Shallow embedding conventions:
- JS strings are `String`, JS `undefined`/`null` are `Option`.
- Mutable module-level `Map`s become explicit association lists threaded
  through the functions that read or write them (`Map.set` is modelled as a
  cons, which shadows older bindings under first-match lookup, matching
  overwrite semantics observationally).
- The filesystem is an explicit list of existing file paths
  (`fs.existsSync` / `fs.statSync(..).isFile()` become membership; the
  model does not distinguish directories from files, which none of the
  verified properties depend on).
- External collaborators (the SFC compiler's `parse`, `resolveFrom`,
  manifest reading) are taken as function parameters.
-/

/-! ## Vue SFC data model (`@vue/compiler-sfc` shapes used by the plugin) -/

/-- An SFC block attribute value: `string | true` in the compiler's record. -/
inductive AttrVal where
  | tru : AttrVal
  | str (s : String) : AttrVal
deriving DecidableEq

/-- An SFC block as consumed by `serverPluginVue.ts`.  `content` and `attrs`
are the fields inspected by `isEqualBlock`; `module` and `scopedFlag` are
the style-block flags (`s.module != null` and `s.scoped` truthiness are
pre-computed into `Bool`s; the source field `scoped` is renamed because
`scoped` is reserved in Lean). -/
structure SFCBlock where
  content : String
  attrs : List (String × AttrVal)
  module : Bool
  scopedFlag : Bool
deriving DecidableEq

/-- The parsed descriptor: script, template and the ordered style list. -/
structure SFCDescriptor where
  script : Option SFCBlock
  template : Option SFCBlock
  styles : List SFCBlock
deriving DecidableEq

/-- A `vueCache` entry (`CacheEntry` in the source): parsed descriptor plus
the three independently-populated compiled slots.  Compiled payloads are
opaque to every verified property and are modelled as `String`s. -/
structure CacheEntry where
  descriptor : Option SFCDescriptor
  template : Option String
  script : Option String
  styles : List (Option String)
deriving DecidableEq

/-- The `vueCache` map (keyed by file path).  The source uses an LRU cache
with a 65535-entry bound; eviction is not modelled (no verified property
involves more than a handful of entries). -/
abbrev VueCache := List (String × CacheEntry)

def VueCache.get (c : VueCache) (k : String) : Option CacheEntry :=
  (c.find? (fun p => p.1 == k)).map Prod.snd

def VueCache.del (c : VueCache) (k : String) : VueCache :=
  c.filter (fun p => p.1 != k)

def VueCache.set (c : VueCache) (k : String) (v : CacheEntry) : VueCache :=
  (k, v) :: c.filter (fun p => p.1 != k)

/-! ## `isEqualBlock` (serverPluginVue.ts, lines 259-270) -/

/-- The key list `Object.keys(attrs)`. -/
def attrKeys (attrs : List (String × AttrVal)) : List String :=
  attrs.map Prod.fst

/-- Record access `attrs[key]` on the JS record (first binding wins; JS objects have
unique keys, so lists with `Nodup` keys are the faithful inputs). -/
def getAttr (attrs : List (String × AttrVal)) (k : String) : Option AttrVal :=
  (attrs.find? (fun p => p.1 == k)).map Prod.snd

/-- Source function `isEqualBlock(a, b)`, translated clause by clause. -/
def isEqualBlock (a b : Option SFCBlock) : Bool :=
  match a, b with
  | none, none => true
  | none, some _ => false
  | some _, none => false
  | some a, some b =>
    if a.content.length != b.content.length then false
    else if a.content != b.content then false
    else
      let keysA := attrKeys a.attrs
      let keysB := attrKeys b.attrs
      if keysA.length != keysB.length then false
      else keysA.all (fun key => getAttr a.attrs key == getAttr b.attrs key)

/-! ## The HMR diff of `handleVueReload` (serverPluginVue.ts, lines 161-233) -/

/-- The notifications `handleVueReload` can emit over `watcher.send`. -/
inductive HMREvent where
  | vueReload : HMREvent
  | styleUpdate (index : Nat) : HMREvent
  | styleRemove (index : Nat) : HMREvent
  | vueRerender : HMREvent
deriving DecidableEq

/-- The update loop `nextStyles.forEach((_, i) => { if (!prevStyles[i] ||
!isEqualBlock(prevStyles[i], nextStyles[i])) send(style-update i) })`.
The callback only consumes the index, so it is rendered as a pass over
`List.range nextStyles.length`. -/
def styleUpdateEvents (prevStyles nextStyles : List SFCBlock) : List HMREvent :=
  (List.range nextStyles.length).filterMap (fun i =>
    if prevStyles[i]?.isNone || ! isEqualBlock prevStyles[i]? nextStyles[i]? then
      some (HMREvent.styleUpdate i)
    else none)

/-- The removal loop `prevStyles.slice(nextStyles.length).forEach((_, i) =>
send(style-remove (i + nextStyles.length)))`. -/
def styleRemoveEvents (prevStyles nextStyles : List SFCBlock) : List HMREvent :=
  (List.range (prevStyles.length - nextStyles.length)).map
    (fun i => HMREvent.styleRemove (i + nextStyles.length))

/-- The diff portion of `handleVueReload` (source lines 161-233), producing
the emitted notifications in send order.  `prevDescriptor` is the
descriptor retained from the pre-change cache entry, `descriptor` the
freshly parsed one. -/
def hmrDiff (prevDescriptor descriptor : SFCDescriptor) : List HMREvent :=
  if ! isEqualBlock descriptor.script prevDescriptor.script then
    [HMREvent.vueReload]
  else
    let needRerender := ! isEqualBlock descriptor.template prevDescriptor.template
    let prevStyles := prevDescriptor.styles
    let nextStyles := descriptor.styles
    if prevStyles.any (fun s => s.module) || nextStyles.any (fun s => s.module) then
      [HMREvent.vueReload]
    else
      let needRerender := needRerender ||
        (prevStyles.any (fun s => s.scopedFlag) != nextStyles.any (fun s => s.scopedFlag))
      styleUpdateEvents prevStyles nextStyles
        ++ styleRemoveEvents prevStyles nextStyles
        ++ (if needRerender then [HMREvent.vueRerender] else [])

/-! ## `parseSFC` and `handleVueReload` (cache state transitions) -/

/-- Content fallback `if (!content) content = await cachedRead(null, filePath)`: a missing or
empty (falsy) `content` argument falls back to reading the file;
`fileContent = none` models a failed read (the `catch` branch). -/
def effectiveContent (content fileContent : Option String) : Option String :=
  match content with
  | some c => if c == "" then fileContent else some c
  | none => fileContent

/-- The `parseSFC` function (source lines 293-347).  `parse` is the external
`@vue/compiler-sfc` parser (errors are only logged by the source, so a
plain descriptor-valued function is faithful); returns the descriptor (or
`none` when the read failed) and the updated `vueCache`. -/
def parseSFC (parse : String → SFCDescriptor) (cache : VueCache)
    (filePath : String) (content fileContent : Option String) :
    Option SFCDescriptor × VueCache :=
  let cached := cache.get filePath
  match cached.bind (fun c => c.descriptor) with
  | some d => (some d, cache)
  | none =>
    match effectiveContent content fileContent with
    | none => (none, cache)
    | some s =>
      let descriptor := parse s
      let c0 : CacheEntry :=
        match cached with
        | some c => c
        | none => ⟨none, none, none, []⟩
      (some descriptor, cache.set filePath ⟨some descriptor, c0.template, c0.script, c0.styles⟩)

/-- The `handleVueReload` handler (source lines 136-250): read the pre-change entry,
bust the cache, re-parse, and run the diff when a prior descriptor exists.
Returns the emitted notifications and the resulting `vueCache`. -/
def handleVueReload (parse : String → SFCDescriptor) (cache : VueCache)
    (filePath : String) (content fileContent : Option String) :
    List HMREvent × VueCache :=
  let cacheEntry := cache.get filePath
  let cache1 := VueCache.del cache filePath
  match parseSFC parse cache1 filePath content fileContent with
  | (none, cache2) => ([], cache2)
  | (some descriptor, cache2) =>
    match cacheEntry.bind (fun c => c.descriptor) with
    | none => ([], cache2)
    | some prevDescriptor => (hmrDiff prevDescriptor descriptor, cache2)

/-! ## Shared association-list map operations (JS `Map` / record access) -/

/-- JS `Map.get` (first binding wins; `Map.set` below shadows older ones). -/
def mapGet {α : Type} (m : List (String × α)) (k : String) : Option α :=
  (m.find? (fun p => p.1 == k)).map Prod.snd

/-- JS `Map.set` as insert-at-front (shadows any previous binding). -/
def mapSet {α : Type} (m : List (String × α)) (k : String) (v : α) :
    List (String × α) :=
  (k, v) :: m

/-- JS `Map.get` followed by the truthiness test of the idiom
`const c = m.get(k); if (c) ...` (`undefined` and `""` are falsy). -/
def mapGetT (m : List (String × String)) (k : String) : Option String :=
  match mapGet m k with
  | some v => if v == "" then none else some v
  | none => none

/-- Split a character list at every occurrence of the separator (the
semantics of `String.splitOn` for a one-character separator, implemented
by structural recursion). -/
def splitChars (c : Char) : List Char → List (List Char)
  | [] => [[]]
  | a :: rest =>
    if a == c then [] :: splitChars c rest
    else
      match splitChars c rest with
      | [] => [[a]]
      | seg :: segs => (a :: seg) :: segs

/-- The `String.splitOn` analogue for a one-character separator. -/
def splitOnChar (c : Char) (s : String) : List String :=
  (splitChars c s.data).map (fun l => ⟨l⟩)

/-- Is the first character list an initial segment of the second? -/
def charsLead : List Char → List Char → Bool
  | [], _ => true
  | _ :: _, [] => false
  | a :: as, b :: bs => (a == b) && charsLead as bs

/-- JS `s.startsWith(pre)`. -/
def leadsWith (pre s : String) : Bool := charsLead pre.data s.data

/-- JS `s.endsWith(suf)`. -/
def trailsWith (suf s : String) : Bool :=
  charsLead suf.data.reverse s.data.reverse

/-- Modelled from the spec: `cleanUrl` lives in the missing `utils` module;
per the spec's uses it strips the hash (`/#.*$/`) and then the query
(`/\?.*$/`) from a url. -/
def cleanUrl (url : String) : String :=
  (splitOnChar '?' ((splitOnChar '#' url).headD url)).headD url

/-! ## CSS plugin change handler (`serverPluginCss.ts`, lines 53-97) -/

/-- The calls the CSS change handler can make: `watcher.send` of a
style-update, or `watcher.handleJSReload`. -/
inductive CssSend where
  | styleUpdate (path : String) : CssSend
  | jsReload (file : String) : CssSend
deriving DecidableEq

/-- Observable outcome of one CSS change event: the emitted calls, whether
the "not currently in use" diagnostic fired, the surviving `processedCSS`
keys, and the `vueCache.del` performed by the src-import branch. -/
structure CssHandlerResult where
  sends : List CssSend
  diagnosed : Bool
  processedCSS : List String
  vueDel : Option String
deriving DecidableEq

/-- The value `qs.parse(styleImport.split('?', 2)[1]).index`, rendered as the string
that the template literal would print (a missing key prints "undefined"). -/
def queryIndexOf (s : String) : String :=
  match splitOnChar '?' s with
  | _ :: q :: _ =>
    match (splitOnChar '&' q).filterMap (fun kv =>
      match splitOnChar '=' kv with
      | "index" :: v :: _ => some v
      | _ => none) with
    | v :: _ => v
    | [] => "undefined"
  | _ => "undefined"

/-- The `watcher.on('change')` callback of `cssPlugin` (source lines
53-97).  `isPre` stands for `cssPreprocessLangRE.test` (the regex lives in
the missing `cssUtils` module), `fileToReq` for `resolver.fileToRequest`.
`processedCSS` is modelled by its key set (the handler only queries
membership and deletes); `srcImportMap` maps file paths to the recorded
style-import url.  Every branch is total: no branch throws. -/
def cssChangeHandler (isPre : String → Bool) (fileToReq : String → String)
    (processedCSS : List String) (srcImportMap : List (String × String))
    (filePath : String) : CssHandlerResult :=
  if trailsWith ".css" filePath || isPre filePath then
    let publicPath := fileToReq filePath
    if ! processedCSS.contains publicPath && ! (mapGet srcImportMap filePath).isSome then
      ⟨[], true, processedCSS, none⟩
    else if (mapGet srcImportMap filePath).isSome then
      let styleImport := (mapGet srcImportMap filePath).getD ""
      ⟨[CssSend.styleUpdate
          (cleanUrl styleImport ++ "?type=style&index=" ++ queryIndexOf styleImport)],
        false, processedCSS, some filePath⟩
    else if trailsWith ".module.css" filePath then
      ⟨[CssSend.jsReload filePath], false, processedCSS, none⟩
    else
      ⟨[CssSend.styleUpdate publicPath], false,
        processedCSS.filter (fun k => k != publicPath), none⟩
  else ⟨[], false, processedCSS, none⟩

/-! ## Resolver (`resolver.ts`, provided as the unnamed source file) -/

/-- The filesystem as the set of existing files. -/
abbrev FS := List String

/-- JS `fs.statSync(file).isFile()` and `fs.existsSync(file)`. -/
def isFile (fs : FS) (file : String) : Bool := fs.contains file

/-- JS truthiness of an optional string (`undefined`, `null`, `""` falsy). -/
def optTruthy (o : Option String) : Bool :=
  match o with
  | some s => s != ""
  | none => false

/-- JS `path.join` of two segments, for the already-normalized slash-separated
paths the resolver builds. -/
def pathJoin (a b : String) : String := a ++ "/" ++ b

def supportedExts : List String := [".mjs", ".js", ".ts", ".jsx", ".tsx", ".json"]

/-- Query extraction `id.match(/\?.*$/)`: the query suffix from the first `?` on, or `""`. -/
def queryOf (id : String) : String :=
  match splitOnChar '?' id with
  | _ :: rest =>
    if rest.isEmpty then "" else "?" ++ String.intercalate "?" rest
  | [] => ""

/-- The probe loop of `resolveExt`: for each supported extension try
`cleanId + ext`, then `path.join(cleanId, '/index' + ext)`. -/
def probeExts (fs : FS) (cleanId : String) : List String → String
  | [] => ""
  | ext :: rest =>
    if isFile fs (cleanId ++ ext) then ext
    else if isFile fs (cleanId ++ "/index" ++ ext) then "/index" ++ ext
    else probeExts fs cleanId rest

/-- The `resolveExt` function (resolver source lines 72-94): infer a missing extension,
returning the inferred suffix exactly when the re-assembled id differs
from the input. -/
def resolveExt (fs : FS) (id : String) : Option String :=
  let cleanId := cleanUrl id
  if isFile fs cleanId then none
  else
    let inferredExt := probeExts fs cleanId supportedExts
    let resolved := cleanId ++ inferredExt ++ queryOf id
    if resolved != id then some inferredExt else none

/-- The `exports["."]` value shapes `resolveNodeModule` inspects. -/
inductive DotVal where
  | str (s : String) : DotVal
  | obj (imp : Option String) : DotVal
deriving DecidableEq

/-- The `exports` field shapes `resolveNodeModule` inspects. -/
inductive ExportsVal where
  | str (s : String) : ExportsVal
  | obj (dot : Option DotVal) : ExportsVal
deriving DecidableEq

/-- The manifest fields read by `resolveNodeModule`. -/
structure PkgJson where
  exports : Option ExportsVal
  module : Option String
  main : Option String
deriving DecidableEq

/-- The `exports`-derived candidate of the entry-point block (source lines
265-275): a truthy string `exports`, else a truthy string `exports["."]`,
else `exports["."].import`; JS truthiness decides each guard. -/
def exportsEntry (pkg : PkgJson) : Option String :=
  match pkg.exports with
  | none => none
  | some (ExportsVal.str s) => if s != "" then some s else none
  | some (ExportsVal.obj none) => none
  | some (ExportsVal.obj (some (DotVal.str s))) => if s != "" then some s else none
  | some (ExportsVal.obj (some (DotVal.obj imp))) => imp

/-- The entry-point selection of `resolveNodeModule` (source lines 264-277):
the `exports` candidate if truthy, else `pkg.module || pkg.main || null`. -/
def resolveEntryPoint (pkg : PkgJson) : Option String :=
  let e := exportsEntry pkg
  if optTruthy e then e
  else if optTruthy pkg.module then pkg.module
  else if optTruthy pkg.main then pkg.main
  else none

/-- The `NodeModuleInfo` record (`entry` and `entryFilePath` are `string | null`). -/
structure NodeModuleInfo where
  entry : Option String
  entryFilePath : Option String
  pkg : PkgJson
deriving DecidableEq

/-- The process-wide resolver maps: `idToFileMap` and `fileToRequestMap`
(owned by the missing `serverPluginModuleResolve` module but written here),
`viteOptimizedMap`, `nodeModulesInfoMap`, `nodeModulesFileMap`. -/
structure ResolverState where
  idToFileMap : List (String × String)
  fileToRequestMap : List (String × String)
  viteOptimizedMap : List (String × String)
  nodeModulesInfoMap : List (String × NodeModuleInfo)
  nodeModulesFileMap : List (String × String)
deriving DecidableEq

/-- The per-call environment: the filesystem, the optimized cache directory
(`resolveOptimizedCacheDir(root)` from the external `depOptimizer`, resolved
once per root and possibly absent), and the external oracles with the root
baked in: `pkgPathOf id` is `resolveFrom(root, id + "/package.json")`
(`none` when it throws), `pkgContent` reads and parses a manifest (`none`
when unreadable), `resolveFromFile id` is `resolveFrom(root, id)`. -/
structure ResolveEnv where
  fs : FS
  cacheDir : Option String
  pkgPathOf : String → Option String
  pkgContent : String → Option PkgJson
  resolveFromFile : String → Option String

/-- The cold path of `resolveOptimizedModule`: check `<cacheDir>/<id>` on
disk and memoize a hit. -/
def resolveOptimizedFresh (fs : FS) (cacheDir : Option String)
    (vmap : List (String × String)) (id : String) :
    Option String × List (String × String) :=
  match cacheDir with
  | none => (none, vmap)
  | some dir =>
    let file := pathJoin dir id
    if isFile fs file then (some file, mapSet vmap id file) else (none, vmap)

/-- The `resolveOptimizedModule` function (source lines 216-232): return the memoized
path when truthy, else probe the cache directory. -/
def resolveOptimizedModule (fs : FS) (cacheDir : Option String)
    (vmap : List (String × String)) (id : String) :
    Option String × List (String × String) :=
  match mapGetT vmap id with
  | some cached => (some cached, vmap)
  | none => resolveOptimizedFresh fs cacheDir vmap id

/-- JS `path.dirname` restricted to the slash-separated paths in play. -/
def dirname (p : String) : String :=
  let parts := splitOnChar '/' p
  if parts.length ≤ 1 then "." else String.intercalate "/" (parts.dropLast)

/-- JS `path.posix.join(id, entry)`: join with `/`, normalizing a leading
`./` on the entry. -/
def posixJoin (a b : String) : String :=
  let b2 := if leadsWith "./" b then b.drop 2 else b
  a ++ "/" ++ b2

/-- The `resolveNodeModule` function (source lines 242-309): memoized per id; locate the
manifest, select the entry point, resolve its extension, register the
composed deep-import path in `nodeModulesFileMap`, and memoize the result
in `nodeModulesInfoMap`. -/
def resolveNodeModule (env : ResolveEnv) (st : ResolverState) (id : String) :
    Option NodeModuleInfo × ResolverState :=
  match mapGet st.nodeModulesInfoMap id with
  | some cached => (some cached, st)
  | none =>
    match env.pkgPathOf id with
    | none => (none, st)
    | some pkgPath =>
      match env.pkgContent pkgPath with
      | none => (none, st)
      | some pkg =>
        let entryPoint0 := resolveEntryPoint pkg
        if optTruthy entryPoint0 then
          let e0 := entryPoint0.getD ""
          let efp0 := pathJoin (dirname pkgPath) e0
          let extO := resolveExt env.fs efp0
          let e1 := if optTruthy extO then e0 ++ extO.getD "" else e0
          let efp1 := if optTruthy extO then efp0 ++ extO.getD "" else efp0
          let entryPoint := posixJoin id e1
          let result : NodeModuleInfo := ⟨some entryPoint, some efp1, pkg⟩
          (some result,
            { st with
              nodeModulesFileMap := mapSet st.nodeModulesFileMap entryPoint efp1,
              nodeModulesInfoMap := mapSet st.nodeModulesInfoMap id result })
        else
          let result : NodeModuleInfo := ⟨none, none, pkg⟩
          (some result,
            { st with nodeModulesInfoMap := mapSet st.nodeModulesInfoMap id result })

/-- The `resolveNodeModuleFile` function (source lines 311-326): memoized per id via
`nodeModulesFileMap`, else `resolveFrom(root, id)` (a throw is a silent
miss). -/
def resolveNodeModuleFile (env : ResolveEnv) (fmap : List (String × String))
    (id : String) : Option String × List (String × String) :=
  match mapGetT fmap id with
  | some cached => (some cached, fmap)
  | none =>
    match env.resolveFromFile id with
    | none => (none, fmap)
    | some resolved => (some resolved, mapSet fmap id resolved)

/-- Modelled from the spec: `moduleRE` lives in the missing
`serverPluginModuleResolve` module; per the spec's "reserved
module-namespace prefix", it matches request paths beginning with the
`/@modules/` namespace. -/
def moduleTest (publicPath : String) : Bool := leadsWith "/@modules/" publicPath

/-- The rewrite `publicPath.replace(moduleRE, '')`. -/
def stripModuleNs (publicPath : String) : String :=
  if moduleTest publicPath then publicPath.drop 10 else publicPath

/-- The non-module fallback of `defaultRequestToFile`: probe the `public`
assets directory, else join against the project root. -/
def publicOrRootJoin (fs : FS) (root publicPath : String) : String :=
  let publicDirPath := pathJoin (pathJoin root "public") (publicPath.drop 1)
  if isFile fs publicDirPath then publicDirPath
  else pathJoin root (publicPath.drop 1)

/-- The `defaultRequestToFile` function (source lines 30-54): module-namespace requests
go through `idToFileMap`, the optimized-artifact lookup and
`resolveNodeModuleFile` (memoizing into `idToFileMap`); everything else
(including a module request that missed all three) falls through to the
public-directory probe and the root join. -/
def defaultRequestToFile (env : ResolveEnv) (st : ResolverState)
    (publicPath root : String) : String × ResolverState :=
  if moduleTest publicPath then
    let id := stripModuleNs publicPath
    match mapGetT st.idToFileMap id with
    | some cachedNodeModule => (cachedNodeModule, st)
    | none =>
      let opt := resolveOptimizedModule env.fs env.cacheDir st.viteOptimizedMap id
      let st2 := { st with viteOptimizedMap := opt.2 }
      match opt.1 with
      | some optimizedModule => (optimizedModule, st2)
      | none =>
        let nm := resolveNodeModuleFile env st2.nodeModulesFileMap id
        let st3 := { st2 with nodeModulesFileMap := nm.2 }
        match nm.1 with
        | some nodeModule =>
          (nodeModule, { st3 with idToFileMap := mapSet st3.idToFileMap id nodeModule })
        | none => (publicOrRootJoin env.fs root publicPath, st3)
  else (publicOrRootJoin env.fs root publicPath, st)

/-- JS `path.relative(root, filePath)` followed by `slash()`, for files under
the root on a posix filesystem: strip the root prefix. -/
def slashRelative (root filePath : String) : String :=
  if leadsWith (root ++ "/") filePath then filePath.drop (root.length + 1)
  else filePath

/-- The `defaultFileToRequest` function (source lines 56-62). -/
def defaultFileToRequest (st : ResolverState) (filePath root : String) : String :=
  match mapGetT st.fileToRequestMap filePath with
  | some moduleRequest => moduleRequest
  | none => "/" ++ slashRelative root filePath

/-- A user-supplied resolver with optional capabilities (the `Resolver`
interface: `requestToFile?`, `fileToRequest?`, `alias?`). -/
structure ResolverHook where
  reqToFile : Option (String → String → Option String)
  fileToReq : Option (String → String → Option String)
  aliasFn : Option (String → Option String)

/-- The `for (const r of resolvers)` loop of `resolveRequest`: first truthy
`r.requestToFile(publicPath, root)` wins. -/
def runHooksReq (hooks : List ResolverHook) (publicPath root : String) :
    Option String :=
  match hooks with
  | [] => none
  | h :: rest =>
    match h.reqToFile with
    | none => runHooksReq rest publicPath root
    | some f =>
      match f publicPath root with
      | none => runHooksReq rest publicPath root
      | some filepath =>
        if filepath == "" then runHooksReq rest publicPath root else some filepath

/-- The resolver loop of `fileToRequest`: first truthy
`r.fileToRequest(filePath, root)` wins. -/
def runHooksFile (hooks : List ResolverHook) (filePath root : String) :
    Option String :=
  match hooks with
  | [] => none
  | h :: rest =>
    match h.fileToReq with
    | none => runHooksFile rest filePath root
    | some f =>
      match f filePath root with
      | none => runHooksFile rest filePath root
      | some request =>
        if request == "" then runHooksFile rest filePath root else some request

/-- The resolver loop of `alias`: first truthy `r.alias(id)` wins. -/
def runHooksAlias (hooks : List ResolverHook) (id : String) : Option String :=
  match hooks with
  | [] => none
  | h :: rest =>
    match h.aliasFn with
    | none => runHooksAlias rest id
    | some f =>
      match f id with
      | none => runHooksAlias rest id
      | some aliased =>
        if aliased == "" then runHooksAlias rest id else some aliased

/-- The `resolveRequest` closure inside `createResolver` (source lines 101-123): run the
custom resolvers, fall back to `defaultRequestToFile`, then infer the
extension; returns `{ filePath, ext }` plus the updated maps. -/
def resolveRequest (hooks : List ResolverHook) (env : ResolveEnv)
    (st : ResolverState) (root publicPath : String) :
    (String × Option String) × ResolverState :=
  let base :=
    match runHooksReq hooks publicPath root with
    | some filepath => (filepath, st)
    | none => defaultRequestToFile env st publicPath root
  let extO := resolveExt env.fs base.1
  ((if optTruthy extO then base.1 ++ extO.getD "" else base.1, extO), base.2)

/-- The method `resolver.requestToFile(publicPath)` of the object built by
`createResolver` (source lines 125-128). -/
def requestToFile (hooks : List ResolverHook) (env : ResolveEnv)
    (st : ResolverState) (root publicPath : String) : String × ResolverState :=
  let r := resolveRequest hooks env st root publicPath
  (r.1.1, r.2)

/-- The method `resolver.resolveExt(publicPath)` (source lines 130-132). -/
def resolverExtOf (hooks : List ResolverHook) (env : ResolveEnv)
    (st : ResolverState) (root publicPath : String) :
    Option String × ResolverState :=
  let r := resolveRequest hooks env st root publicPath
  (r.1.2, r.2)

/-- The method `resolver.fileToRequest(filePath)` (source lines 134-140); reads but
never writes the maps. -/
def fileToRequest (hooks : List ResolverHook) (st : ResolverState)
    (root filePath : String) : String :=
  match runHooksFile hooks filePath root with
  | some request => request
  | none => defaultFileToRequest st filePath root

/-- The method `resolver.alias(id)` (source lines 142-153): the alias table first,
then the custom resolvers. -/
def resolveAlias (aliasTable : List (String × String))
    (hooks : List ResolverHook) (id : String) : Option String :=
  match mapGetT aliasTable id with
  | some aliased => some aliased
  | none => runHooksAlias hooks id

/-! ## Bare-specifier rewrite (`resolveBareModuleRequest`, lines 168-212) -/

/-- The regex test `jsSrcRE.test` (`/\.(?:(?:j|t)sx?|vue)$|\.mjs$/`) on a string. -/
def jsSrcTest (s : String) : Bool :=
  trailsWith ".js" s || trailsWith ".jsx" s || trailsWith ".ts" s ||
    trailsWith ".tsx" s || trailsWith ".vue" s || trailsWith ".mjs" s

/-- JS `path.extname` for the slash-separated ids in play: the suffix from the
last dot of the last segment, with a lone leading dot (dotfile) giving no
extension. -/
def extname (p : String) : String :=
  let base := (splitOnChar '/' p).getLastD p
  match splitOnChar '.' base with
  | [] => ""
  | [_] => ""
  | "" :: [_] => ""
  | parts => "." ++ parts.getLastD ""

/-- Deep-import matching `id.match(deepImportRE)` (`/^([^@][^\/]*)\/|^(@[^\/]+\/[^\/]+)\//`):
the top-level package segment of a deep import, when the id reaches past
it. -/
def deepMatch (id : String) : Option String :=
  if leadsWith "@" id then
    match splitOnChar '/' id with
    | a :: b :: _ :: _ =>
      if 2 ≤ a.length && 1 ≤ b.length then some (a ++ "/" ++ b) else none
    | _ => none
  else if id.length == 0 then none
  else
    match splitOnChar '/' (id.drop 1) with
    | seg :: _ :: _ => some (id.take 1 ++ seg)
    | _ => none

/-- Modelled from the spec: `queryRE` (`/\?.*$/`) lives in the missing
`utils` module; it tests whether the id already carries a query. -/
def queryTest (id : String) : Bool := 2 ≤ (splitOnChar '?' id).length

/-- The `resolveBareModuleRequest` function (source lines 168-212): the optimized lookup
first (hit leaves the id unchanged), then package resolution
(`pkgInfo.entry || id`), then the deep-import diagnostic probe for
source-like ids, else the `?import` / `&import` marker.  Console
diagnostics are not modelled; the second return component is the updated
map state. -/
def resolveBareModuleRequest (env : ResolveEnv) (st : ResolverState)
    (id _importer : String) : String × ResolverState :=
  let opt := resolveOptimizedModule env.fs env.cacheDir st.viteOptimizedMap id
  let st1 := { st with viteOptimizedMap := opt.2 }
  if opt.1.isSome then (id, st1)
  else
    let pk := resolveNodeModule env st1 id
    match pk.1 with
    | some pkgInfo =>
      (if optTruthy pkgInfo.entry then pkgInfo.entry.getD "" else id, pk.2)
    | none =>
      let ext := extname id
      if ext == "" || jsSrcTest ext then
        let st3 :=
          match deepMatch id with
          | some depId =>
            { pk.2 with viteOptimizedMap :=
                (resolveOptimizedModule env.fs env.cacheDir
                  (pk.2).viteOptimizedMap depId).2 }
          | none => pk.2
        (id, st3)
      else
        (id ++ (if queryTest id then "&import" else "?import"), pk.2)

/-! ## Concrete fixtures used by the witness theorems -/

def blkA : SFCBlock := ⟨"export default {a:1}", [], false, false⟩

def blkB : SFCBlock := ⟨"export default {a:2}", [], false, false⟩

def stA : SFCBlock := ⟨".a { color: red }", [], false, false⟩

def stB : SFCBlock := ⟨".b { color: blue }", [], false, false⟩

def stC : SFCBlock := ⟨".c { color: green }", [], false, false⟩

def stM : SFCBlock := ⟨".m { color: red }", [], true, false⟩

def descA : SFCDescriptor := ⟨some blkA, none, []⟩

def descB : SFCDescriptor := ⟨some blkB, none, []⟩

def descM : SFCDescriptor := ⟨some blkA, none, [stM]⟩

def parseToB : String → SFCDescriptor := fun _ => descB

def parseToM : String → SFCDescriptor := fun _ => descM

def cacheA : VueCache := [("/r/App.vue", ⟨some descA, some "tpl", some "scr", [some "css"]⟩)]

def cacheM : VueCache := [("/r/Mod.vue", ⟨some descM, none, none, []⟩)]

def prevS : SFCDescriptor := ⟨none, none, [stA, stB, stC]⟩

def nextS : SFCDescriptor := ⟨none, none, [stA]⟩

def blkX : SFCBlock := ⟨"setup()", [("lang", AttrVal.str "ts"), ("setup", AttrVal.tru)], false, false⟩

def blkY : SFCBlock := ⟨"setup()", [("setup", AttrVal.tru), ("lang", AttrVal.str "ts")], false, false⟩

def env1 : ResolveEnv := ⟨["/r/foo"], none, fun _ => none, fun _ => none, fun _ => none⟩

def env2 : ResolveEnv := ⟨["/r/foo.js"], none, fun _ => none, fun _ => none, fun _ => none⟩

def st0 : ResolverState := ⟨[], [], [], [], []⟩

def pkgA : PkgJson := ⟨some (ExportsVal.obj (some (DotVal.obj (some "./a.js")))), none, some "./b.js"⟩

def envOpt : ResolveEnv :=
  ⟨["/r/node_modules/.vite_opt_cache/foo", "/r/node_modules/foo/b.js"],
    some "/r/node_modules/.vite_opt_cache",
    fun _ => some "/r/node_modules/foo/package.json",
    fun _ => some ⟨none, none, some "./b.js"⟩,
    fun _ => some "/r/node_modules/foo/b.js"⟩

/-! ## Cache lemmas -/

theorem vueCache_get_del (c : VueCache) (k : String) :
    VueCache.get (VueCache.del c k) k = none := by
  unfold VueCache.get VueCache.del
  rw [Option.map_eq_none', List.find?_eq_none]
  intro x hx
  have h2 := (List.mem_filter.mp hx).2
  simp only [bne_iff_ne, ne_eq] at h2
  simpa [beq_iff_eq] using h2

theorem vueCache_get_set (c : VueCache) (k : String) (v : CacheEntry) :
    VueCache.get (VueCache.set c k v) k = some v := by
  unfold VueCache.get VueCache.set
  rw [List.find?_cons_of_pos _ (by simp)]
  rfl

/-- After the cache bust, `parseSFC` always re-parses and stores a fresh
all-slots-empty entry. -/
theorem parseSFC_after_del (parse : String → SFCDescriptor) (cache : VueCache)
    (filePath : String) (content fileContent : Option String) (s : String)
    (hc : effectiveContent content fileContent = some s) :
    parseSFC parse (VueCache.del cache filePath) filePath content fileContent
      = (some (parse s),
         VueCache.set (VueCache.del cache filePath) filePath
           ⟨some (parse s), none, none, []⟩) := by
  unfold parseSFC
  rw [vueCache_get_del, hc]
  rfl

/-- Running `handleVueReload` under an obtained content and a prior cached
descriptor: the emitted events are the diff, the cache holds the fresh
entry. -/
theorem handleVueReload_run (parse : String → SFCDescriptor) (cache : VueCache)
    (filePath : String) (content fileContent : Option String) (s : String)
    (prev : SFCDescriptor)
    (hc : effectiveContent content fileContent = some s)
    (hprev : (VueCache.get cache filePath).bind (fun c => c.descriptor) = some prev) :
    handleVueReload parse cache filePath content fileContent
      = (hmrDiff prev (parse s),
         VueCache.set (VueCache.del cache filePath) filePath
           ⟨some (parse s), none, none, []⟩) := by
  unfold handleVueReload
  dsimp only
  rw [parseSFC_after_del parse cache filePath content fileContent s hc, hprev]

/-! ## C1, C2, C10: handleVueReload notifications and cache reset -/

/-- C1: for every file-change event handled by `handleVueReload` where a
prior cached descriptor exists and the previous and next script blocks
differ under the block-equality rule, the only notification emitted is a
single full reload (`vue-reload`); no style-update, style-remove or
rerender event is sent. -/
theorem script_change_sends_reload_only
    (parse : String → SFCDescriptor) (cache : VueCache) (filePath : String)
    (content fileContent : Option String) (s : String) (prev : SFCDescriptor)
    (hc : effectiveContent content fileContent = some s)
    (hprev : (VueCache.get cache filePath).bind (fun c => c.descriptor) = some prev)
    (hscript : isEqualBlock (parse s).script prev.script = false) :
    (handleVueReload parse cache filePath content fileContent).1
      = [HMREvent.vueReload] := by
  rw [handleVueReload_run parse cache filePath content fileContent s prev hc hprev]
  simp [hmrDiff, hscript]

/-- C1 witness: the spec's own diff example — previous script
`export default {a:1}`, next `export default {a:2}` — emits exactly one
`vue-reload`. -/
theorem script_change_sends_reload_only_instance :
    (handleVueReload parseToB cacheA "/r/App.vue" (some "src") none).1
      = [HMREvent.vueReload] :=
  script_change_sends_reload_only parseToB cacheA "/r/App.vue" (some "src")
    none "src" descA (by decide) (by decide) (by decide)

/-- C2: when the script blocks are equal but either style list contains a
CSS-module-flagged block, the only notification emitted is a single full
reload (`vue-reload`), even with byte-identical blocks. -/
theorem css_module_forces_reload_only
    (parse : String → SFCDescriptor) (cache : VueCache) (filePath : String)
    (content fileContent : Option String) (s : String) (prev : SFCDescriptor)
    (hc : effectiveContent content fileContent = some s)
    (hprev : (VueCache.get cache filePath).bind (fun c => c.descriptor) = some prev)
    (hscript : isEqualBlock (parse s).script prev.script = true)
    (hmod : (prev.styles.any (fun st => st.module) ||
             (parse s).styles.any (fun st => st.module)) = true) :
    (handleVueReload parse cache filePath content fileContent).1
      = [HMREvent.vueReload] := by
  rw [handleVueReload_run parse cache filePath content fileContent s prev hc hprev]
  simp [hmrDiff, hscript, hmod]

/-- C2 witness: previous and next descriptors are byte-identical and carry
one module-flagged style block; the handler still emits exactly one
`vue-reload`. -/
theorem css_module_forces_reload_only_instance :
    (handleVueReload parseToM cacheM "/r/Mod.vue" (some "src") none).1
      = [HMREvent.vueReload] :=
  css_module_forces_reload_only parseToM cacheM "/r/Mod.vue" (some "src")
    none "src" descM (by decide) (by decide) (by decide) (by decide)

/-- C10: after any change event processed by `handleVueReload` in which the
current content is obtained (parsing succeeds), the cache entry for the
file is exactly the freshly parsed descriptor with every compiled slot
empty — the pre-change entry is deleted unconditionally, whether or not a
prior descriptor existed or any notification was emitted. -/
theorem reload_resets_cache_entry
    (parse : String → SFCDescriptor) (cache : VueCache) (filePath : String)
    (content fileContent : Option String) (s : String)
    (hc : effectiveContent content fileContent = some s) :
    VueCache.get (handleVueReload parse cache filePath content fileContent).2
        filePath
      = some ⟨some (parse s), none, none, []⟩ := by
  unfold handleVueReload
  dsimp only
  rw [parseSFC_after_del parse cache filePath content fileContent s hc]
  cases h : (VueCache.get cache filePath).bind (fun c => c.descriptor) <;>
    simp [h, vueCache_get_set]

/-- C10 witness: the pre-change entry of `/r/App.vue` had every slot
populated; after the change event the entry is the fresh descriptor with
all compiled slots empty. -/
theorem reload_resets_cache_entry_instance :
    VueCache.get (handleVueReload parseToB cacheA "/r/App.vue" (some "src") none).2
        "/r/App.vue"
      = some ⟨some descB, none, none, []⟩ :=
  reload_resets_cache_entry parseToB cacheA "/r/App.vue" (some "src") none
    "src" (by decide)

/-! ## C3: the style-diff stage emits exactly the computed updates/removals -/

theorem mem_styleUpdateEvents (P N : List SFCBlock) (i : Nat) :
    HMREvent.styleUpdate i ∈ styleUpdateEvents P N ↔
      i < N.length ∧
        (P[i]?.isNone = true ∨ isEqualBlock P[i]? N[i]? = false) := by
  simp only [styleUpdateEvents, List.mem_filterMap, List.mem_range]
  constructor
  · rintro ⟨a, ha, hf⟩
    by_cases h : (P[a]?.isNone || ! isEqualBlock P[a]? N[a]?) = true
    · rw [if_pos h] at hf
      have hai : a = i := HMREvent.styleUpdate.inj (Option.some.inj hf)
      subst hai
      refine ⟨ha, ?_⟩
      revert h
      cases isEqualBlock P[a]? N[a]? <;> simp_all
    · rw [if_neg h] at hf
      exact Option.noConfusion hf
  · rintro ⟨hi, hcond⟩
    refine ⟨i, hi, ?_⟩
    have h : (P[i]?.isNone || ! isEqualBlock P[i]? N[i]?) = true := by
      rcases hcond with h1 | h2
      · simp [h1]
      · simp [h2]
    rw [if_pos h]

theorem mem_styleRemoveEvents (P N : List SFCBlock) (i : Nat) :
    HMREvent.styleRemove i ∈ styleRemoveEvents P N ↔
      N.length ≤ i ∧ i < P.length := by
  simp only [styleRemoveEvents, List.mem_map, List.mem_range]
  constructor
  · rintro ⟨a, ha, hf⟩
    have := HMREvent.styleRemove.inj hf
    omega
  · rintro ⟨h1, h2⟩
    exact ⟨i - N.length, by omega, by rw [Nat.sub_add_cancel h1]⟩

theorem shape_styleUpdateEvents {P N : List SFCBlock} {a : HMREvent}
    (h : a ∈ styleUpdateEvents P N) : ∃ i, a = HMREvent.styleUpdate i := by
  rcases List.mem_filterMap.mp h with ⟨b, _, hf⟩
  by_cases hc : (P[b]?.isNone || ! isEqualBlock P[b]? N[b]?) = true
  · rw [if_pos hc] at hf
    exact ⟨b, (Option.some.inj hf).symm⟩
  · rw [if_neg hc] at hf
    exact Option.noConfusion hf

theorem shape_styleRemoveEvents {P N : List SFCBlock} {a : HMREvent}
    (h : a ∈ styleRemoveEvents P N) : ∃ i, a = HMREvent.styleRemove i := by
  rcases List.mem_map.mp h with ⟨b, _, hf⟩
  exact ⟨b + N.length, hf.symm⟩

theorem nodup_styleUpdateEvents (P N : List SFCBlock) :
    (styleUpdateEvents P N).Nodup := by
  refine (List.nodup_range _).filterMap ?_
  intro a a' b hb hb'
  by_cases hc : (P[a]?.isNone || ! isEqualBlock P[a]? N[a]?) = true
  · rw [Option.mem_def, if_pos hc] at hb
    by_cases hc' : (P[a']?.isNone || ! isEqualBlock P[a']? N[a']?) = true
    · rw [Option.mem_def, if_pos hc'] at hb'
      have := (Option.some.inj hb).trans (Option.some.inj hb').symm
      exact HMREvent.styleUpdate.inj this
    · rw [Option.mem_def, if_neg hc'] at hb'
      exact Option.noConfusion hb'
  · rw [Option.mem_def, if_neg hc] at hb
    exact Option.noConfusion hb

theorem nodup_styleRemoveEvents (P N : List SFCBlock) :
    (styleRemoveEvents P N).Nodup := by
  refine (List.nodup_range _).map ?_
  intro a a' h
  have := HMREvent.styleRemove.inj h
  omega

/-- At the style-diff stage (scripts equal, no module-flagged style block
in either list), `hmrDiff` is the update events, then the removal events,
then an optional rerender tail. -/
theorem hmrDiff_style_stage (prev next : SFCDescriptor)
    (hscript : isEqualBlock next.script prev.script = true)
    (hmod : (prev.styles.any (fun st => st.module) ||
             next.styles.any (fun st => st.module)) = false) :
    ∃ R : List HMREvent, (∀ a ∈ R, a = HMREvent.vueRerender) ∧ R.Nodup ∧
      hmrDiff prev next =
        styleUpdateEvents prev.styles next.styles ++
          styleRemoveEvents prev.styles next.styles ++ R := by
  refine ⟨(if (! isEqualBlock next.template prev.template ||
      (prev.styles.any (fun st => st.scopedFlag) !=
       next.styles.any (fun st => st.scopedFlag))) then [HMREvent.vueRerender]
      else []), ?_, ?_, ?_⟩
  · intro a ha
    revert ha
    split <;> simp_all
  · split <;> simp
  · simp [hmrDiff, hscript, hmod]

/-- C3: for every change event that reaches the style-diff stage (equal
scripts, no CSS-module block in either list), the emitted style events are
exactly the updates `style-update(i)` at indices `i < |next|` where the
previous list has no block or a block unequal under the rule, and the
removals `style-remove(i)` for `|next| ≤ i < |prev|`, with no event
duplicated. -/
theorem style_diff_event_set (prev next : SFCDescriptor)
    (hscript : isEqualBlock next.script prev.script = true)
    (hmod : (prev.styles.any (fun st => st.module) ||
             next.styles.any (fun st => st.module)) = false) :
    (∀ i, HMREvent.styleUpdate i ∈ hmrDiff prev next ↔
        i < next.styles.length ∧
          (prev.styles[i]?.isNone = true ∨
            isEqualBlock prev.styles[i]? next.styles[i]? = false)) ∧
    (∀ i, HMREvent.styleRemove i ∈ hmrDiff prev next ↔
        next.styles.length ≤ i ∧ i < prev.styles.length) ∧
    (hmrDiff prev next).Nodup := by
  obtain ⟨R, hR, hRnd, hd⟩ := hmrDiff_style_stage prev next hscript hmod
  refine ⟨?_, ?_, ?_⟩
  · intro i
    rw [hd]
    have hB := (mem_styleRemoveEvents prev.styles next.styles i)
    have hnB : HMREvent.styleUpdate i ∉ styleRemoveEvents prev.styles next.styles := by
      intro h
      rcases shape_styleRemoveEvents h with ⟨j, hj⟩
      exact HMREvent.noConfusion hj
    have hnR : HMREvent.styleUpdate i ∉ R := by
      intro h
      exact HMREvent.noConfusion (hR _ h)
    simp [List.mem_append, hnB, hnR, mem_styleUpdateEvents]
  · intro i
    rw [hd]
    have hnA : HMREvent.styleRemove i ∉ styleUpdateEvents prev.styles next.styles := by
      intro h
      rcases shape_styleUpdateEvents h with ⟨j, hj⟩
      exact HMREvent.noConfusion hj
    have hnR : HMREvent.styleRemove i ∉ R := by
      intro h
      exact HMREvent.noConfusion (hR _ h)
    simp [List.mem_append, hnA, hnR, mem_styleRemoveEvents]
  · rw [hd]
    refine List.Nodup.append (List.Nodup.append ?_ ?_ ?_) hRnd ?_
    · exact nodup_styleUpdateEvents _ _
    · exact nodup_styleRemoveEvents _ _
    · intro a haA haB
      rcases shape_styleUpdateEvents haA with ⟨j, hj⟩
      rcases shape_styleRemoveEvents haB with ⟨j', hj'⟩
      subst hj
      exact HMREvent.noConfusion hj'
    · intro a haAB haR
      have haV := hR _ haR
      subst haV
      rcases List.mem_append.mp haAB with h | h
      · rcases shape_styleUpdateEvents h with ⟨j, hj⟩
        exact HMREvent.noConfusion hj
      · rcases shape_styleRemoveEvents h with ⟨j, hj⟩
        exact HMREvent.noConfusion hj

/-- C3 witness: previous styles of length 3, next of length 1 with the
surviving block unchanged — the removal characterization applies at index
1, and the full output is exactly `style-remove(1)` and `style-remove(2)`. -/
theorem style_diff_event_set_instance :
    (HMREvent.styleRemove 1 ∈ hmrDiff prevS nextS ↔
        nextS.styles.length ≤ 1 ∧ 1 < prevS.styles.length) ∧
      hmrDiff prevS nextS = [HMREvent.styleRemove 1, HMREvent.styleRemove 2] :=
  ⟨(style_diff_event_set prevS nextS (by decide) (by decide)).2.1 1, by decide⟩

/-! ## C8: characterization of `isEqualBlock` -/

theorem getAttr_isSome_iff (l : List (String × AttrVal)) (k : String) :
    (getAttr l k).isSome = true ↔ k ∈ attrKeys l := by
  simp only [getAttr, attrKeys, Option.isSome_map', List.find?_isSome,
    List.mem_map, beq_iff_eq]

theorem getAttr_eq_none_of_not_mem {l : List (String × AttrVal)} {k : String}
    (h : k ∉ attrKeys l) : getAttr l k = none := by
  cases ho : getAttr l k with
  | none => rfl
  | some v => exact absurd ((getAttr_isSome_iff l k).mp (by rw [ho]; rfl)) h

/-- C8: `isEqualBlock` returns true iff both blocks are absent, or both are
present with exactly equal content strings and extensionally equal
attribute records — equal key sets (independent of order) with equal
values on every shared key; exactly one absent yields false.  The `Nodup`
hypotheses are the JS-object invariant that record keys are unique. -/
theorem isEqualBlock_characterization (a b : Option SFCBlock)
    (ha : ∀ x, a = some x → (attrKeys x.attrs).Nodup)
    (hb : ∀ y, b = some y → (attrKeys y.attrs).Nodup) :
    isEqualBlock a b = true ↔
      (a = none ∧ b = none) ∨
      (∃ x y, a = some x ∧ b = some y ∧ x.content = y.content ∧
        ∀ k, getAttr x.attrs k = getAttr y.attrs k) := by
  cases a with
  | none =>
    cases b with
    | none => simp [isEqualBlock]
    | some y => simp [isEqualBlock]
  | some x =>
    cases b with
    | none => simp [isEqualBlock]
    | some y =>
      have hax := ha x rfl
      have hby := hb y rfl
      simp only [isEqualBlock]
      constructor
      · intro h
        by_cases h1 : (x.content.length != y.content.length) = true
        · rw [if_pos h1] at h
          exact absurd h (by simp)
        rw [if_neg h1] at h
        by_cases h2 : (x.content != y.content) = true
        · rw [if_pos h2] at h
          exact absurd h (by simp)
        rw [if_neg h2] at h
        have hcontent : x.content = y.content := by
          by_contra hne
          exact h2 (by simpa [bne_iff_ne] using hne)
        by_cases h3 : ((attrKeys x.attrs).length != (attrKeys y.attrs).length) = true
        · rw [if_pos h3] at h
          exact absurd h (by simp)
        rw [if_neg h3] at h
        have hlen : (attrKeys x.attrs).length = (attrKeys y.attrs).length := by
          by_contra hne
          exact h3 (by simpa [bne_iff_ne] using hne)
        have hall := List.all_eq_true.mp h
        have hagree : ∀ k ∈ attrKeys x.attrs, getAttr x.attrs k = getAttr y.attrs k := by
          intro k hk
          exact beq_iff_eq.mp (hall k hk)
        have hsub : ∀ k ∈ attrKeys x.attrs, k ∈ attrKeys y.attrs := by
          intro k hk
          have hxk : (getAttr x.attrs k).isSome = true :=
            (getAttr_isSome_iff _ _).mpr hk
          rw [hagree k hk] at hxk
          exact (getAttr_isSome_iff _ _).mp hxk
        have hfin : (attrKeys x.attrs).toFinset = (attrKeys y.attrs).toFinset := by
          apply Finset.eq_of_subset_of_card_le
          · intro k hk
            rw [List.mem_toFinset] at hk ⊢
            exact hsub k hk
          · rw [List.toFinset_card_of_nodup hby, List.toFinset_card_of_nodup hax,
              hlen]
        refine Or.inr ⟨x, y, rfl, rfl, hcontent, ?_⟩
        intro k
        by_cases hk : k ∈ attrKeys x.attrs
        · exact hagree k hk
        · have hky : k ∉ attrKeys y.attrs := by
            intro hky
            apply hk
            have hmem : k ∈ (attrKeys y.attrs).toFinset := List.mem_toFinset.mpr hky
            rw [← hfin] at hmem
            exact List.mem_toFinset.mp hmem
          rw [getAttr_eq_none_of_not_mem hk, getAttr_eq_none_of_not_mem hky]
      · rintro (⟨h1, _⟩ | ⟨x', y', hx', hy', hcontent, hext⟩)
        · exact Option.noConfusion h1
        · have hxx : x = x' := Option.some.inj hx'
          have hyy : y = y' := Option.some.inj hy'
          subst hxx hyy
          have hkeys : ∀ k, k ∈ attrKeys x.attrs ↔ k ∈ attrKeys y.attrs := by
            intro k
            rw [← getAttr_isSome_iff, ← getAttr_isSome_iff, hext k]
          have hfin : (attrKeys x.attrs).toFinset = (attrKeys y.attrs).toFinset := by
            apply Finset.ext
            intro k
            rw [List.mem_toFinset, List.mem_toFinset]
            exact hkeys k
          have hlen : (attrKeys x.attrs).length = (attrKeys y.attrs).length := by
            rw [← List.toFinset_card_of_nodup hax, ← List.toFinset_card_of_nodup hby,
              hfin]
          rw [if_neg (by simp [hcontent]), if_neg (by simp [hcontent]),
            if_neg (by simp [hlen])]
          exact List.all_eq_true.mpr (fun k _ => beq_iff_eq.mpr (hext k))

/-- C8 witness: two present blocks with identical content and the same
attribute record listed in opposite key orders are judged equal. -/
theorem isEqualBlock_characterization_instance :
    isEqualBlock (some blkX) (some blkY) = true :=
  (isEqualBlock_characterization (some blkX) (some blkY)
      (by intro x hx; cases hx; decide) (by intro y hy; cases hy; decide)).mpr
    (Or.inr ⟨blkX, blkY, rfl, rfl, rfl, by
      intro k
      by_cases h1 : ("lang" : String) = k
      · subst h1; decide
      · by_cases h2 : ("setup" : String) = k
        · subst h2; decide
        · have b1 : (("lang" : String) == k) = false := beq_eq_false_iff_ne.mpr h1
          have b2 : (("setup" : String) == k) = false := beq_eq_false_iff_ne.mpr h2
          simp [getAttr, blkX, blkY, List.find?, b1, b2]⟩)

/-! ## C9: unused stylesheet changes are skipped with a diagnostic -/

/-- C9: a change event on a stylesheet file whose public path has no
processed-CSS cache entry and whose file path has no recorded src-import
edge emits no notification and raises no error: the handler only records
the diagnostic and returns, leaving the cache untouched. -/
theorem css_change_unused_file_skipped
    (isPre : String → Bool) (fileToReq : String → String)
    (processedCSS : List String) (srcImportMap : List (String × String))
    (filePath : String)
    (hcss : (trailsWith ".css" filePath || isPre filePath) = true)
    (hnp : processedCSS.contains (fileToReq filePath) = false)
    (hns : mapGet srcImportMap filePath = none) :
    cssChangeHandler isPre fileToReq processedCSS srcImportMap filePath
      = ⟨[], true, processedCSS, none⟩ := by
  unfold cssChangeHandler
  rw [if_pos hcss]
  dsimp only
  rw [if_pos (by rw [hnp, hns]; rfl)]

/-- C9 witness: a preprocessed stylesheet file that was never served and
never recorded as a style src import is skipped with the diagnostic only. -/
theorem css_change_unused_file_skipped_instance :
    cssChangeHandler (fun _ => true) (fun _ => "/a.scss") [] [] "/r/a.scss"
      = ⟨[], true, [], none⟩ :=
  css_change_unused_file_skipped (fun _ => true) (fun _ => "/a.scss") [] []
    "/r/a.scss" (Bool.or_true _) (by decide) (by decide)

/-! ## C7: optimized-artifact lookup memoization policy -/

theorem pathJoin_ne_empty (a b : String) : pathJoin a b ≠ "" := by
  unfold pathJoin
  intro h
  have h2 := congrArg String.length h
  rw [String.length_append, String.length_append] at h2
  have h3 : ("/" : String).length = 1 := rfl
  have h4 : ("" : String).length = 0 := rfl
  rw [h3, h4] at h2
  omega

theorem mapGetT_set_self (vmap : List (String × String)) (id v : String)
    (hv : v ≠ "") : mapGetT (mapSet vmap id v) id = some v := by
  unfold mapGetT mapGet mapSet
  rw [List.find?_cons_of_pos _ (by simp)]
  simp [hv]

/-- C7: the optimized-artifact lookup memoizes hits permanently and never
memoizes misses: (1) a call returning a hit leaves the id mapped to the
returned path; (2) once the map carries a truthy path for the id, every
later call — under any filesystem and cache directory, so without
re-checking the filesystem — returns it with the state unchanged; (3) a
miss leaves the map unchanged, so the next call re-probes the filesystem
and a newly produced artifact becomes visible without restart. -/
theorem optimized_memo_policy :
    (∀ fs cd vmap id f vmap2,
        resolveOptimizedModule fs cd vmap id = (some f, vmap2) →
          mapGetT vmap2 id = some f) ∧
    (∀ fs cd vmap id f, mapGetT vmap id = some f →
        resolveOptimizedModule fs cd vmap id = (some f, vmap)) ∧
    (∀ fs cd vmap id vmap2,
        resolveOptimizedModule fs cd vmap id = (none, vmap2) → vmap2 = vmap) := by
  refine ⟨?_, ?_, ?_⟩
  · intro fs cd vmap id f vmap2 h
    unfold resolveOptimizedModule resolveOptimizedFresh at h
    cases hm : mapGetT vmap id with
    | some cached =>
      rw [hm] at h
      rw [Prod.mk.injEq] at h
      obtain ⟨h1, h2⟩ := h
      rw [← h2, hm, h1]
    | none =>
      rw [hm] at h
      cases cd with
      | none => simp at h
      | some dir =>
        dsimp only at h
        by_cases hf : isFile fs (pathJoin dir id) = true
        · rw [if_pos hf, Prod.mk.injEq] at h
          obtain ⟨h1, h2⟩ := h
          rw [← h2, ← Option.some.inj h1]
          exact mapGetT_set_self vmap id _ (pathJoin_ne_empty dir id)
        · rw [if_neg hf] at h
          simp at h
  · intro fs cd vmap id f hm
    unfold resolveOptimizedModule
    rw [hm]
  · intro fs cd vmap id vmap2 h
    unfold resolveOptimizedModule resolveOptimizedFresh at h
    cases hm : mapGetT vmap id with
    | some cached =>
      rw [hm] at h
      simp at h
    | none =>
      rw [hm] at h
      cases cd with
      | none =>
        injection h with h1 h2
        exact h2.symm
      | some dir =>
        dsimp only at h
        by_cases hf : isFile fs (pathJoin dir id) = true
        · rw [if_pos hf] at h
          simp at h
        · rw [if_neg hf] at h
          injection h with h1 h2
          exact h2.symm

/-- C7 witness: the permanent-hit clause applied to a map already carrying
`foo`, under an empty filesystem and no cache directory — the cached path
is returned with the state untouched. -/
theorem optimized_memo_policy_instance :
    resolveOptimizedModule [] none [("foo", "/cache/foo")] "foo"
      = (some "/cache/foo", [("foo", "/cache/foo")]) :=
  optimized_memo_policy.2.1 [] none [("foo", "/cache/foo")] "foo" "/cache/foo"
    (by decide)

/-! ## C6: an optimized artifact shadows package resolution -/

/-- C6: whenever the optimized-artifact lookup succeeds for a bare id,
`resolveBareModuleRequest` returns the id unchanged — the optimized lookup
runs before the package resolver, so a pre-bundled artifact shadows
ordinary `node_modules` resolution even when both would apply. -/
theorem optimized_shadows_node_module (env : ResolveEnv) (st : ResolverState)
    (id importer : String)
    (h : (resolveOptimizedModule env.fs env.cacheDir st.viteOptimizedMap id).1.isSome
        = true) :
    (resolveBareModuleRequest env st id importer).1 = id := by
  unfold resolveBareModuleRequest
  dsimp only
  rw [if_pos h]

/-- C6 witness: `foo` both has a pre-bundled artifact and resolves through
`node_modules` (second conjunct); the rewrite still leaves `foo`
unchanged. -/
theorem optimized_shadows_node_module_instance :
    (resolveBareModuleRequest envOpt st0 "foo" "/src/main.js").1 = "foo" ∧
      (resolveNodeModule envOpt st0 "foo").1.isSome = true :=
  ⟨optimized_shadows_node_module envOpt st0 "foo" "/src/main.js" (by decide),
   by decide⟩

/-! ## C5: package entry-point precedence -/

theorem resolveEntryPoint_of_exports {pkg : PkgJson} {s : String}
    (hx : exportsEntry pkg = some s) (hs : s ≠ "") :
    resolveEntryPoint pkg = some s := by
  unfold resolveEntryPoint
  rw [hx]
  simp [optTruthy, bne_iff_ne, hs]

/-- C5: the entry point selected by `resolveNodeModule` follows the
precedence, first (JS-truthy) defined wins: (1) a string `exports`;
(2) `exports["."]` when itself a string; (3) `exports["."].import`;
(4) the `module` field; (5) the `main` field; (6) otherwise `null` — and
in particular `{exports: {".": {import: "./a.js"}}, main: "./b.js"}`
resolves to `./a.js`, not `./b.js`. -/
theorem package_entry_precedence :
    (∀ pkg s, pkg.exports = some (ExportsVal.str s) → s ≠ "" →
        resolveEntryPoint pkg = some s) ∧
    (∀ pkg s, pkg.exports = some (ExportsVal.obj (some (DotVal.str s))) →
        s ≠ "" → resolveEntryPoint pkg = some s) ∧
    (∀ pkg s, pkg.exports = some (ExportsVal.obj (some (DotVal.obj (some s)))) →
        s ≠ "" → resolveEntryPoint pkg = some s) ∧
    (∀ pkg s, optTruthy (exportsEntry pkg) = false → pkg.module = some s →
        s ≠ "" → resolveEntryPoint pkg = some s) ∧
    (∀ pkg s, optTruthy (exportsEntry pkg) = false →
        optTruthy pkg.module = false → pkg.main = some s → s ≠ "" →
        resolveEntryPoint pkg = some s) ∧
    (∀ pkg, optTruthy (exportsEntry pkg) = false →
        optTruthy pkg.module = false → optTruthy pkg.main = false →
        resolveEntryPoint pkg = none) ∧
    resolveEntryPoint pkgA = some "./a.js" := by
  refine ⟨?_, ?_, ?_, ?_, ?_, ?_, by decide⟩
  · intro pkg s he hs
    refine resolveEntryPoint_of_exports ?_ hs
    unfold exportsEntry
    rw [he]
    simp [bne_iff_ne, hs]
  · intro pkg s he hs
    refine resolveEntryPoint_of_exports ?_ hs
    unfold exportsEntry
    rw [he]
    simp [bne_iff_ne, hs]
  · intro pkg s he hs
    refine resolveEntryPoint_of_exports ?_ hs
    unfold exportsEntry
    rw [he]
  · intro pkg s hex hm hs
    unfold resolveEntryPoint
    dsimp only
    rw [hex, hm]
    simp [optTruthy, bne_iff_ne, hs]
  · intro pkg s hex hm hmain hs
    unfold resolveEntryPoint
    dsimp only
    rw [hex, hm, hmain]
    simp [optTruthy, bne_iff_ne, hs]
  · intro pkg hex hm hmain
    unfold resolveEntryPoint
    dsimp only
    rw [hex, hm, hmain]
    simp

/-- C5 witness: the spec's own manifest example, via the
`exports["."].import` clause. -/
theorem package_entry_precedence_instance :
    resolveEntryPoint pkgA = some "./a.js" :=
  package_entry_precedence.2.2.1 pkgA "./a.js" rfl (by decide)

/-! ## C4 (corrected): the resolver does not memoize by raw input -/

/-- C4 counterexample: with the same raw input `"/foo"`, two successive
`requestToFile` calls (the second reusing the state produced by the first)
return different results when the filesystem changes in between (`/r/foo`
replaced by `/r/foo.js`).  A resolver that memoized by raw input for the
process lifetime would have returned the first call's value. -/
theorem resolver_memoization_refuted :
    (requestToFile [] env1 st0 "/r" "/foo").1 = "/r/foo" ∧
      (requestToFile [] env2 (requestToFile [] env1 st0 "/r" "/foo").2
          "/r" "/foo").1 = "/r/foo.js" ∧
      (requestToFile [] env2 (requestToFile [] env1 st0 "/r" "/foo").2
          "/r" "/foo").1 ≠ (requestToFile [] env1 st0 "/r" "/foo").1 :=
  ⟨by decide, by decide, by decide⟩

/-- C4 amended: `requestToFile` keeps no memo keyed by its raw input — for
every request outside the module namespace its result is independent of
the accumulated resolver-map state, so each call re-runs resolution
against the filesystem current at that call. -/
theorem requestToFile_state_independent (hooks : List ResolverHook)
    (env : ResolveEnv) (st st' : ResolverState) (root publicPath : String)
    (h : moduleTest publicPath = false) :
    (requestToFile hooks env st root publicPath).1
      = (requestToFile hooks env st' root publicPath).1 := by
  unfold requestToFile resolveRequest defaultRequestToFile
  rw [h]
  cases runHooksReq hooks publicPath root <;> rfl

/-- C4 amended-claim witness: the second call of the counterexample trace
computes the same value from the empty state as from the state left by the
first call. -/
theorem requestToFile_state_independent_instance :
    (requestToFile [] env2 st0 "/r" "/foo").1
      = (requestToFile [] env2
          (requestToFile [] env1 st0 "/r" "/foo").2 "/r" "/foo").1 :=
  requestToFile_state_independent [] env2 st0
    (requestToFile [] env1 st0 "/r" "/foo").2 "/r" "/foo" (by decide)
